import Mathlib

/-!
Shallow embedding of `BasicSerializer.hpp` (namespace `halvoe`): a fixed-capacity,
bounds-checked binary cursor (`Serializer` / `Deserializer`) over a caller-owned
byte buffer, with deferred-write references (`SerializerReference`).

Modelling conventions:
* a buffer is a total function `Nat → Nat` from byte offsets to byte values
  (values produced by the serializer are always `< 256`); offsets are exact
  naturals, matching pointer arithmetic `m_begin + offset`;
* `size_t` arithmetic is modular: every addition the C++ performs on `size_t`
  values is taken `% SZ` with `SZ = 2 ^ 64`;
* a type parameter `sizeof(T)` becomes an explicit byte-width argument `w`;
  an arithmetic value of width `w` is a natural `< 256 ^ w`, stored in
  little-endian byte order (the host representation on the target platform);
* `tl::expected<A, Status>` becomes `Except Status A`; the sticky `m_status`
  field is part of the cursor state, as in the source.
-/

namespace halvoe

/-- `size_t` modulus: `2 ^ 64`. -/
def SZ : Nat := 2 ^ 64

/-- A byte buffer: total map from offsets to byte values. -/
def Buf : Type := Nat → Nat

/-- Store the `w` little-endian bytes of `v` at offsets `[off, off + w)`,
leaving every other offset unchanged (models the type-punned store
`*reinterpret_cast<Type*>(m_begin + m_cursor) = in_value`). -/
def writeBytesLE (b : Buf) (off w v : Nat) : Buf :=
  fun i => if off ≤ i ∧ i < off + w then v / 256 ^ (i - off) % 256 else b i

/-- Read `w` bytes at `[off, off + w)` as a little-endian value (models
`*reinterpret_cast<const Type*>(m_begin + m_cursor)`). -/
def readBytesLE (b : Buf) (off : Nat) : Nat → Nat
  | 0 => 0
  | w + 1 => b off % 256 + 256 * readBytesLE b (off + 1) w

/-- `std::memcpy(dst + off, src, n)`: copy `n` bytes of `src` into `dst`
starting at `off`. -/
def memcpyIn (dst : Buf) (off : Nat) (src : Nat → Nat) (n : Nat) : Buf :=
  fun i => if off ≤ i ∧ i < off + n then src (i - off) % 256 else dst i

/-- `halvoe::SerializerStatus`. -/
inductive SerializerStatus where
  | success
  | writeOutOfRange
  | writeStringOutOfRange
  | writeStringSizeOutOfRange
deriving DecidableEq, Repr

/-- `halvoe::DeserializerStatus`. -/
inductive DeserializerStatus where
  | success
  | readOutOfRange
  | readStringOutOfRange
  | readStringSizeOutOfRange
  | readStringOutIsNullptr
  | stringAllocationFailed
  | readIsEnumFunIsNullptr
  | readIsEnumFunFalse
deriving DecidableEq, Repr

/-- `halvoe::SerializerReference<Type>`: a pointer `m_begin + off` to a slot of
`width = sizeof(Type)` bytes inside the serializer's buffer. -/
structure SerRef where
  off : Nat
  width : Nat
deriving DecidableEq, Repr

/-- `SerializerReference::read`. -/
def SerRef.read (r : SerRef) (b : Buf) : Nat :=
  readBytesLE b r.off r.width

/-- `SerializerReference::write`: patches the slot in the underlying buffer;
it has no access to the `Serializer`'s cursor or status. -/
def SerRef.write (r : SerRef) (v : Nat) (b : Buf) : Buf :=
  writeBytesLE b r.off r.width v

/-- `halvoe::Serializer<tc_bufferSize>`: the template parameter becomes the
field `cap`; the buffer pointer is passed separately to each operation. -/
structure Serializer where
  cap : Nat
  cursor : Nat
  status : SerializerStatus
deriving DecidableEq, Repr

/-- `Serializer::reset`. -/
def Serializer.reset (s : Serializer) : Serializer :=
  { s with cursor := 0, status := .success }

/-- `Serializer::fitsInBuffer(size_t)`: `m_cursor + in_size <= tc_bufferSize`
in wrapping `size_t` arithmetic. -/
def Serializer.fitsInBuffer (s : Serializer) (size : Nat) : Bool :=
  (s.cursor + size) % SZ ≤ s.cap

/-- `Serializer::skip<Type>()` with `w = sizeof(Type)`: bounds-check, return a
reference to the slot at the old cursor, advance the cursor, leave the buffer
untouched. -/
def Serializer.skip (w : Nat) (s : Serializer) (b : Buf) :
    Except SerializerStatus SerRef × Serializer × Buf :=
  if (s.cursor + w) % SZ > s.cap then
    (.error .writeOutOfRange, { s with status := .writeOutOfRange }, b)
  else
    (.ok ⟨s.cursor, w⟩, { s with cursor := (s.cursor + w) % SZ }, b)

/-- `Serializer::write<Type>(in_value)` with `w = sizeof(Type)`. -/
def Serializer.write (w v : Nat) (s : Serializer) (b : Buf) :
    Except SerializerStatus Nat × Serializer × Buf :=
  if (s.cursor + w) % SZ > s.cap then
    (.error .writeOutOfRange, { s with status := .writeOutOfRange }, b)
  else
    (.ok ((s.cursor + w) % SZ),
     { s with cursor := (s.cursor + w) % SZ },
     writeBytesLE b s.cursor w v)

/-- `Serializer::writeEnum<Type>(in_value)` with `w = sizeof(UnderlyingType)`
and `v` the underlying integer representation of the enum value. -/
def Serializer.writeEnum (w v : Nat) (s : Serializer) (b : Buf) :
    Except SerializerStatus Nat × Serializer × Buf :=
  if (s.cursor + w) % SZ > s.cap then
    (.error .writeOutOfRange, { s with status := .writeOutOfRange }, b)
  else
    (.ok ((s.cursor + w) % SZ),
     { s with cursor := (s.cursor + w) % SZ },
     writeBytesLE b s.cursor w v)

/-- `Serializer::writeStr<SizeType>(in_string, in_size)` with
`sw = sizeof(SizeType)`, `src` the source characters and `len = in_size`:
bounds-check prefix plus payload, write the length prefix via
`write<SizeType>`, then `memcpy` the payload and advance the cursor. -/
def Serializer.writeStr (sw : Nat) (src : Nat → Nat) (len : Nat)
    (s : Serializer) (b : Buf) :
    Except SerializerStatus Nat × Serializer × Buf :=
  if (s.cursor + sw + len) % SZ > s.cap then
    (.error .writeStringOutOfRange, { s with status := .writeStringOutOfRange }, b)
  else
    match Serializer.write sw len s b with
    | (.error _, s1, b1) =>
        (.error .writeStringSizeOutOfRange,
         { s1 with status := .writeStringSizeOutOfRange }, b1)
    | (.ok _, s1, b1) =>
        (.ok ((s1.cursor + len) % SZ),
         { s1 with cursor := (s1.cursor + len) % SZ },
         memcpyIn b1 s1.cursor src len)

/-- `halvoe::Deserializer<tc_bufferSize>`. -/
structure Deserializer where
  cap : Nat
  cursor : Nat
  status : DeserializerStatus
deriving DecidableEq, Repr

/-- `Deserializer::reset`. -/
def Deserializer.reset (d : Deserializer) : Deserializer :=
  { d with cursor := 0, status := .success }

/-- `Deserializer::fitsInBuffer(size_t)`. -/
def Deserializer.fitsInBuffer (d : Deserializer) (size : Nat) : Bool :=
  (d.cursor + size) % SZ ≤ d.cap

/-- `Deserializer::skip<Type>()` with `w = sizeof(Type)`. -/
def Deserializer.skip (w : Nat) (d : Deserializer) :
    Except DeserializerStatus Nat × Deserializer :=
  if (d.cursor + w) % SZ > d.cap then
    (.error .readOutOfRange, { d with status := .readOutOfRange })
  else
    (.ok ((d.cursor + w) % SZ), { d with cursor := (d.cursor + w) % SZ })

/-- `Deserializer::read<Type>()` with `w = sizeof(Type)`. -/
def Deserializer.read (w : Nat) (d : Deserializer) (b : Buf) :
    Except DeserializerStatus Nat × Deserializer :=
  if (d.cursor + w) % SZ > d.cap then
    (.error .readOutOfRange, { d with status := .readOutOfRange })
  else
    (.ok (readBytesLE b d.cursor w), { d with cursor := (d.cursor + w) % SZ })

/-- `Deserializer::readEnum<Type, UnderlyingType>(fun_isEnumValue)` with
`w = sizeof(UnderlyingType)`, `funIsNull` modelling `fun_isEnumValue == nullptr`
and `p` the validity predicate.  Faithful to the source: the bounds check on
line 350 calls `error(readOutOfRange)` (setting the sticky status) but is
missing the `return`, so execution falls through to the dereference and the
predicate test. -/
def Deserializer.readEnum (w : Nat) (funIsNull : Bool) (p : Nat → Bool)
    (d : Deserializer) (b : Buf) :
    Except DeserializerStatus Nat × Deserializer :=
  if funIsNull then
    (.error .readIsEnumFunIsNullptr, { d with status := .readIsEnumFunIsNullptr })
  else
    let d1 := if (d.cursor + w) % SZ > d.cap
              then { d with status := .readOutOfRange } else d
    let value := readBytesLE b d1.cursor w
    if p value = false then
      (.error .readIsEnumFunFalse, { d1 with status := .readIsEnumFunFalse })
    else
      (.ok value, { d1 with cursor := (d1.cursor + w) % SZ })

/-- `Deserializer::readStr<SizeType>(in_maxStringSize, out_string)` with
`sw = sizeof(SizeType)`, `outIsNull` modelling `out_string == nullptr` and
`out` the caller's destination buffer.  The clamp
`sizeElement.value() < in_maxStringSize ? sizeElement.value() : in_maxStringSize - 1`
is computed in `SizeType` modular arithmetic (`% 256 ^ sw`). -/
def Deserializer.readStrTo (sw maxSize : Nat) (outIsNull : Bool)
    (d : Deserializer) (b : Buf) (out : Buf) :
    Except DeserializerStatus Nat × Deserializer × Buf :=
  if outIsNull then
    (.error .readStringOutIsNullptr,
     { d with status := .readStringOutIsNullptr }, out)
  else if (d.cursor + sw + maxSize) % SZ > d.cap then
    (.error .readStringOutOfRange,
     { d with status := .readStringOutOfRange }, out)
  else
    match Deserializer.read sw d b with
    | (.error _, d1) =>
        (.error .readStringSizeOutOfRange,
         { d1 with status := .readStringSizeOutOfRange }, out)
    | (.ok declared, d1) =>
        let size := if declared < maxSize then declared
                    else (maxSize + (256 ^ sw - 1)) % 256 ^ sw
        let out1 := memcpyIn out 0 (fun j => b (d1.cursor + j)) size
        let out2 := fun i => if i = size then 0 else out1 i
        (.ok size, { d1 with cursor := (d1.cursor + size) % SZ }, out2)

/-- `Deserializer::readStr<SizeType>(in_maxStringSize)` (the `String`-returning
overload, non-Teensy branch) with `sw = sizeof(SizeType)`; the result is the
list of payload bytes.  Note the clamp condition here is `<=`, not `<`. -/
def Deserializer.readStrString (sw maxSize : Nat) (d : Deserializer) (b : Buf) :
    Except DeserializerStatus (List Nat) × Deserializer :=
  if (d.cursor + sw + maxSize) % SZ > d.cap then
    (.error .readStringOutOfRange, { d with status := .readStringOutOfRange })
  else
    match Deserializer.read sw d b with
    | (.error _, d1) =>
        (.error .readStringSizeOutOfRange,
         { d1 with status := .readStringSizeOutOfRange })
    | (.ok declared, d1) =>
        let size := if declared ≤ maxSize then declared
                    else (maxSize + (256 ^ sw - 1)) % 256 ^ sw
        let str := (List.range size).map (fun j => b (d1.cursor + j) % 256)
        (.ok str, { d1 with cursor := (d1.cursor + size) % SZ })

/-! ### Helper lemmas about the byte-level primitives -/

theorem writeBytesLE_in (b : Buf) (off w v i : Nat)
    (h1 : off ≤ i) (h2 : i < off + w) :
    writeBytesLE b off w v i = v / 256 ^ (i - off) % 256 := by
  simp [writeBytesLE, h1, h2]

theorem writeBytesLE_out (b : Buf) (off w v i : Nat)
    (h : i < off ∨ off + w ≤ i) :
    writeBytesLE b off w v i = b i := by
  have : ¬ (off ≤ i ∧ i < off + w) := by omega
  simp [writeBytesLE, this]

theorem memcpyIn_in (dst : Buf) (off : Nat) (src : Nat → Nat) (n i : Nat)
    (h1 : off ≤ i) (h2 : i < off + n) :
    memcpyIn dst off src n i = src (i - off) % 256 := by
  simp [memcpyIn, h1, h2]

theorem memcpyIn_out (dst : Buf) (off : Nat) (src : Nat → Nat) (n i : Nat)
    (h : i < off ∨ off + n ≤ i) :
    memcpyIn dst off src n i = dst i := by
  have : ¬ (off ≤ i ∧ i < off + n) := by omega
  simp [memcpyIn, this]

theorem readBytesLE_congr (b1 b2 : Buf) :
    ∀ (w off : Nat), (∀ j, j < w → b1 (off + j) = b2 (off + j)) →
      readBytesLE b1 off w = readBytesLE b2 off w := by
  intro w
  induction w with
  | zero => intro off _; rfl
  | succ w ih =>
    intro off h
    have h0 : b1 off = b2 off := by simpa using h 0 (Nat.succ_pos w)
    have hrest : ∀ j, j < w → b1 (off + 1 + j) = b2 (off + 1 + j) := by
      intro j hj
      have := h (j + 1) (by omega)
      have e : off + (j + 1) = off + 1 + j := by omega
      rw [e] at this
      exact this
    simp only [readBytesLE, h0, ih (off + 1) hrest]

theorem mod_pow_split (v w : Nat) :
    v % 256 ^ (w + 1) = v % 256 + 256 * (v / 256 % 256 ^ w) := by
  rw [pow_succ, mul_comm]
  exact Nat.mod_mul

/-- Round trip at the byte level: reading back `w` bytes just written at the
same offset reconstructs the value modulo `256 ^ w`. -/
theorem readBytesLE_writeBytesLE :
    ∀ (w v off : Nat) (b : Buf),
      readBytesLE (writeBytesLE b off w v) off w = v % 256 ^ w := by
  intro w
  induction w with
  | zero => intro v off b; simp [readBytesLE, Nat.mod_one]
  | succ w ih =>
    intro v off b
    have hhead : writeBytesLE b off (w + 1) v off = v % 256 := by
      rw [writeBytesLE_in b off (w + 1) v off (Nat.le_refl off) (by omega)]
      simp
    have htail : readBytesLE (writeBytesLE b off (w + 1) v) (off + 1) w
        = readBytesLE (writeBytesLE b (off + 1) w (v / 256)) (off + 1) w := by
      apply readBytesLE_congr
      intro j hj
      rw [writeBytesLE_in b off (w + 1) v (off + 1 + j) (by omega) (by omega),
          writeBytesLE_in b (off + 1) w (v / 256) (off + 1 + j) (by omega) (by omega)]
      have e1 : off + 1 + j - off = j + 1 := by omega
      have e2 : off + 1 + j - (off + 1) = j := by omega
      rw [e1, e2, pow_succ, mul_comm, ← Nat.div_div_eq_div_mul]
    simp only [readBytesLE, hhead, htail, ih (v / 256) (off + 1) b]
    rw [mod_pow_split]
    omega

/-! ### Claim theorems -/

/-- C1 (code_bug): with fewer than `sizeof(UnderlyingType)` bytes remaining,
`readEnum` is claimed to return the `readOutOfRange` error, leave the cursor
unchanged, and never touch a byte at or beyond capacity.  The source sets the
sticky status but is missing the `return`, so on a 1-byte buffer a 2-byte
`readEnum` (with an always-true predicate) returns a success, advances the
cursor to 2 (past capacity 1), and its result depends on the byte at offset 1,
one past the end of the buffer: two memories agreeing on `[0, capacity)` give
different results. -/
theorem readEnum_out_of_range_is_reachable :
    (Deserializer.readEnum 2 false (fun _ => true) ⟨1, 0, .success⟩ (fun _ => 0)
      = (.ok 0, ⟨1, 2, .readOutOfRange⟩)) ∧
    (Deserializer.readEnum 2 false (fun _ => true) ⟨1, 0, .success⟩
        (fun i => if i = 1 then 7 else 0)).1 = .ok 1792 ∧
    (∀ i, i < 1 → (fun _ => (0 : Nat)) i = (fun i => if i = 1 then 7 else 0) i) ∧
    ¬ ((2 : Nat) ≤ 1) :=
  ⟨rfl, rfl, by intro i hi; rw [Nat.lt_one_iff.mp hi]; decide, by omega⟩

/-- C8 (code_bug): the spec invariant `0 ≤ cursor ≤ capacity` is claimed to
hold after every operation.  It fails: on a capacity-3 deserializer, after a
successful `skip` of 2 bytes, a 4-byte `readEnum` with an always-true
predicate (via the missing `return` on its bounds check) advances the cursor
to 6, which exceeds the capacity 3. -/
theorem cursor_invariant_violated_by_readEnum :
    ((Deserializer.skip 2 ⟨3, 0, .success⟩).2.cursor = 2) ∧
    ((Deserializer.readEnum 4 false (fun _ => true)
        (Deserializer.skip 2 ⟨3, 0, .success⟩).2 (fun _ => 0)).2.cursor = 6) ∧
    ¬ ((6 : Nat) ≤ (Deserializer.readEnum 4 false (fun _ => true)
        (Deserializer.skip 2 ⟨3, 0, .success⟩).2 (fun _ => 0)).2.cap) :=
  ⟨rfl, rfl, by
    intro h
    rw [show (Deserializer.readEnum 4 false
      (fun _ => true) (Deserializer.skip 2 ⟨3, 0, .success⟩).2
      (fun _ => 0)).2.cap = 3 from rfl] at h
    omega⟩

/-- C3 counterexample: `fitsInBuffer` is computed in wrapping `size_t`
arithmetic, not overflow-safe arithmetic: at cursor 1 on a capacity-8 buffer,
`fitsInBuffer(2^64 - 1)` returns `true` (the sum wraps to 0), although the
exact sum `1 + (2^64 - 1) = 2^64` exceeds 8. -/
theorem fitsInBuffer_wrap_counterexample :
    Serializer.fitsInBuffer ⟨8, 1, .success⟩ (SZ - 1) = true ∧
    ¬ (1 + (SZ - 1) ≤ 8) :=
  ⟨by decide, by decide⟩

/-- C3 amended: `fitsInBuffer(size)` returns `true` iff
`(cursor + size) mod 2^64 ≤ capacity`; when the addition does not wrap
(`cursor + size < 2^64`) this coincides with the exact comparison
`cursor + size ≤ capacity`.  Both the `Serializer` and the `Deserializer`
copies behave identically. -/
theorem fitsInBuffer_modular (s : Serializer) (d : Deserializer) (size : Nat) :
    (Serializer.fitsInBuffer s size = true ↔ (s.cursor + size) % SZ ≤ s.cap) ∧
    (s.cursor + size < SZ →
      (Serializer.fitsInBuffer s size = true ↔ s.cursor + size ≤ s.cap)) ∧
    (Deserializer.fitsInBuffer d size = true ↔ (d.cursor + size) % SZ ≤ d.cap) ∧
    (d.cursor + size < SZ →
      (Deserializer.fitsInBuffer d size = true ↔ d.cursor + size ≤ d.cap)) := by
  refine ⟨by simp [Serializer.fitsInBuffer], ?_,
          by simp [Deserializer.fitsInBuffer], ?_⟩
  · intro h
    simp [Serializer.fitsInBuffer, Nat.mod_eq_of_lt h]
  · intro h
    simp [Deserializer.fitsInBuffer, Nat.mod_eq_of_lt h]

/-- Witness for the amended C3 theorem at cursor 1, capacity 8, size 3. -/
theorem fitsInBuffer_modular_witness :
    Serializer.fitsInBuffer ⟨8, 1, .success⟩ 3 = true :=
  ((fitsInBuffer_modular ⟨8, 1, .success⟩ ⟨8, 0, .success⟩ 3).2.1
    (by decide)).mpr (by decide)

/-! ### The test scenario of `BasicSerializer.ino` (capacity-8 buffer) -/

/-- The fresh serializer of the sketch: capacity 8, cursor 0. -/
def demoSer : Serializer := ⟨8, 0, .success⟩

/-- `serializer.write<uint8_t>(8)` on an arbitrary fresh buffer `b`. -/
def demoStep1 (b : Buf) : Except SerializerStatus Nat × Serializer × Buf :=
  Serializer.write 1 8 demoSer b

/-- `auto ref = serializer.skip<uint16_t>()`. -/
def demoStep2 (b : Buf) : Except SerializerStatus SerRef × Serializer × Buf :=
  Serializer.skip 2 (demoStep1 b).2.1 (demoStep1 b).2.2

/-- The reference returned by `skip<uint16_t>`: offset 1, width 2. -/
def demoRef : SerRef := ⟨1, 2⟩

/-- `ref.value().write(1024)`. -/
def demoPatched (b : Buf) : Buf := SerRef.write demoRef 1024 (demoStep2 b).2.2

/-- First `serializer.write<uint32_t>(32)`. -/
def demoStep3 (b : Buf) : Except SerializerStatus Nat × Serializer × Buf :=
  Serializer.write 4 32 (demoStep2 b).2.1 (demoPatched b)

/-- Second `serializer.write<uint32_t>(32)`. -/
def demoStep4 (b : Buf) : Except SerializerStatus Nat × Serializer × Buf :=
  Serializer.write 4 32 (demoStep3 b).2.1 (demoStep3 b).2.2

/-- The buffer contents after the whole serializer sequence. -/
def demoWire (b : Buf) : Buf := (demoStep4 b).2.2

/-- The fresh deserializer of the sketch over the same buffer. -/
def demoDes : Deserializer := ⟨8, 0, .success⟩

/-- `deserializer.read<uint8_t>()`. -/
def demoRead1 (b : Buf) : Except DeserializerStatus Nat × Deserializer :=
  Deserializer.read 1 demoDes (demoWire b)

/-- `deserializer.read<uint16_t>()`. -/
def demoRead2 (b : Buf) : Except DeserializerStatus Nat × Deserializer :=
  Deserializer.read 2 (demoRead1 b).2 (demoWire b)

/-- First `deserializer.read<uint32_t>()`. -/
def demoRead3 (b : Buf) : Except DeserializerStatus Nat × Deserializer :=
  Deserializer.read 4 (demoRead2 b).2 (demoWire b)

/-- Second `deserializer.read<uint32_t>()`. -/
def demoRead4 (b : Buf) : Except DeserializerStatus Nat × Deserializer :=
  Deserializer.read 4 (demoRead3 b).2 (demoWire b)

/-- C6 (confirmed): on a fresh 8-byte buffer with arbitrary initial contents,
`write<uint8>(8)` succeeds; `skip<uint16>()` succeeds returning the reference
at offset 1 whose `write(1024)` stores 1024 there; the first `write<uint32>(32)`
succeeds advancing the cursor from 3 to 7; the second fails with
`writeOutOfRange`.  Deserializing the same bytes yields 8, 1024 and 32, and the
fourth read fails with `readOutOfRange`. -/
theorem demo_scenario (b : Buf) :
    (demoStep1 b).1 = .ok 1 ∧
    (demoStep2 b).1 = .ok demoRef ∧
    (demoStep2 b).2.1.cursor = 3 ∧
    SerRef.read demoRef (demoPatched b) = 1024 ∧
    (demoStep3 b).1 = .ok 7 ∧
    (demoStep3 b).2.1.cursor = 7 ∧
    (demoStep4 b).1 = .error .writeOutOfRange ∧
    (demoRead1 b).1 = .ok 8 ∧
    (demoRead2 b).1 = .ok 1024 ∧
    (demoRead3 b).1 = .ok 32 ∧
    (demoRead4 b).1 = .error .readOutOfRange := by
  have hs2 : (demoStep2 b).2.1 = ⟨8, 3, .success⟩ := rfl
  have hp : demoPatched b
      = writeBytesLE (writeBytesLE b 0 1 8) 1 2 1024 := rfl
  have hb3 : (demoStep3 b).2.2
      = writeBytesLE (writeBytesLE (writeBytesLE b 0 1 8) 1 2 1024) 3 4 32 := by
    simp only [demoStep3, hs2, hp]
    rfl
  have hs3 : (demoStep3 b).2.1 = ⟨8, 7, .success⟩ := by
    simp only [demoStep3, hs2]
    rfl
  have hw : demoWire b
      = writeBytesLE (writeBytesLE (writeBytesLE b 0 1 8) 1 2 1024) 3 4 32 := by
    simp only [demoWire, demoStep4, hs3, hb3]
    rfl
  have h1 : (demoRead1 b).2 = ⟨8, 1, .success⟩ := rfl
  have h2 : (demoRead2 b).2 = ⟨8, 3, .success⟩ := rfl
  have h3 : (demoRead3 b).2 = ⟨8, 7, .success⟩ := by
    simp only [demoRead3, h2, hw]
    rfl
  refine ⟨rfl, rfl, rfl, rfl, ?_, ?_, ?_, ?_, ?_, ?_, ?_⟩
  · simp only [demoStep3, hs2, hp]
    rfl
  · rw [hs3]
  · simp only [demoStep4, hs3]
    rfl
  · simp only [demoRead1, demoDes, hw]
    rfl
  · simp only [demoRead2, h1, hw]
    rfl
  · simp only [demoRead3, h2, hw]
    rfl
  · simp only [demoRead4, h3, hw]
    rfl

/-- C5 (confirmed): for every arithmetic type of width `w` and every
representable value `v < 256 ^ w`, if `Serializer::write` succeeds at cursor
`c` then `Deserializer::read` of the same width, at the same offset `c` of the
resulting buffer (any sticky status `st`, same capacity), yields exactly `v`. -/
theorem write_read_roundtrip (s : Serializer) (b : Buf) (w v : Nat)
    (st : DeserializerStatus)
    (hv : v < 256 ^ w)
    (h : (s.cursor + w) % SZ ≤ s.cap) :
    (Deserializer.read w ⟨s.cap, s.cursor, st⟩
        ((Serializer.write w v s b).2.2)).1 = .ok v := by
  have hn : ¬ ((s.cursor + w) % SZ > s.cap) := by omega
  simp only [Serializer.write, Deserializer.read, hn, if_false, if_neg hn]
  rw [readBytesLE_writeBytesLE, Nat.mod_eq_of_lt hv]

/-- Witness for C5: writing the `uint32` value 305419896 at cursor 0 of an
8-byte buffer and reading it back yields 305419896. -/
theorem write_read_roundtrip_witness :
    (Deserializer.read 4 ⟨8, 0, .success⟩
        ((Serializer.write 4 305419896 ⟨8, 0, .success⟩ (fun _ => 0)).2.2)).1
      = .ok 305419896 :=
  write_read_roundtrip ⟨8, 0, .success⟩ (fun _ => 0) 4 305419896 .success
    (by decide) (by decide)

/-- C7 (confirmed): an in-bounds `Serializer::skip<T>` advances the cursor by
exactly `sizeof(T)`, leaves every buffer byte unchanged, and returns a
reference bound to the old cursor offset.  Writing `v` through that reference
only transforms the buffer (it has no access to the serializer's cursor or
status); it places `v`'s bytes in the reserved slot — for any buffer contents
`b2` present at patch time, so intervening writes cannot affect the slot's
final contents — and leaves every byte outside the slot unchanged. -/
theorem skip_reserve_patch (s : Serializer) (b : Buf) (w : Nat)
    (hcap : s.cap < SZ) (h : s.cursor + w ≤ s.cap) :
    Serializer.skip w s b
      = (.ok ⟨s.cursor, w⟩, { s with cursor := s.cursor + w }, b) ∧
    (∀ (b2 : Buf) (v j : Nat), j < w →
      SerRef.write ⟨s.cursor, w⟩ v b2 (s.cursor + j) = v / 256 ^ j % 256) ∧
    (∀ (b2 : Buf) (v i : Nat), i < s.cursor ∨ s.cursor + w ≤ i →
      SerRef.write ⟨s.cursor, w⟩ v b2 i = b2 i) := by
  have hlt : s.cursor + w < SZ := by omega
  have hmod : (s.cursor + w) % SZ = s.cursor + w := Nat.mod_eq_of_lt hlt
  refine ⟨?_, ?_, ?_⟩
  · simp only [Serializer.skip, hmod]
    rw [if_neg (by omega : ¬ s.cursor + w > s.cap)]
  · intro b2 v j hj
    rw [SerRef.write]
    rw [writeBytesLE_in b2 s.cursor w v (s.cursor + j) (by omega) (by omega)]
    rw [Nat.add_sub_cancel_left]
  · intro b2 v i hi
    rw [SerRef.write]
    exact writeBytesLE_out b2 s.cursor w v i hi

/-- Witness for C7, matching the sketch: at cursor 1 on a capacity-8 buffer,
`skip<uint16>` reserves offset 1 and moves the cursor to 3; patching 1024
through the reference puts byte 4 at offset 2. -/
theorem skip_reserve_patch_witness :
    Serializer.skip 2 ⟨8, 1, .success⟩ (fun _ => 0)
      = (.ok ⟨1, 2⟩, ⟨8, 3, .success⟩, fun _ => 0) ∧
    SerRef.write ⟨1, 2⟩ 1024 (fun _ => 0) 2 = 4 := by
  have hmain := skip_reserve_patch ⟨8, 1, .success⟩ (fun _ => 0) 2
    (by decide) (by decide)
  refine ⟨hmain.1, ?_⟩
  have := hmain.2.1 (fun _ => 0) 1024 1 (by decide)
  simpa using this

/-- C4 counterexample: `writeStr<uint64_t>` with the length `2^64 - 8` on a
fresh capacity-8 serializer: the bounds check `cursor + 8 + len > cap` wraps
to `0 > 8` and passes, the 8-byte length prefix is written, and the final
cursor `(8 + (2^64 - 8)) mod 2^64` wraps back to 0 — the call reports success
yet the cursor did not advance by `sizeof(SizeType) + length`. -/
theorem writeStr_wrap_counterexample :
    (Serializer.writeStr 8 (fun _ => 65) (SZ - 8) ⟨8, 0, .success⟩
        (fun _ => 0)).1 = .ok 0 ∧
    (Serializer.writeStr 8 (fun _ => 65) (SZ - 8) ⟨8, 0, .success⟩
        (fun _ => 0)).2.1.cursor = 0 ∧
    ¬ ((0 : Nat) = 0 + (8 + (SZ - 8))) :=
  ⟨rfl, rfl, by decide⟩

/-- C4 amended: a failed `write` or `writeStr` leaves the cursor and every
buffer byte unchanged (in particular the payload is never written when the
length-prefix write fails); a successful `write` (resp. `writeStr`) whose byte
count does not overflow `size_t` advances the cursor by exactly `sizeof(T)`
(resp. `sizeof(SizeType) + length`). -/
theorem write_discipline (s : Serializer) (b : Buf) :
    (∀ w v e, (Serializer.write w v s b).1 = .error e →
        (Serializer.write w v s b).2.1.cursor = s.cursor ∧
        (Serializer.write w v s b).2.2 = b) ∧
    (∀ sw src len e, (Serializer.writeStr sw src len s b).1 = .error e →
        (Serializer.writeStr sw src len s b).2.1.cursor = s.cursor ∧
        (Serializer.writeStr sw src len s b).2.2 = b) ∧
    (∀ w v r, s.cursor + w < SZ →
        (Serializer.write w v s b).1 = .ok r →
        (Serializer.write w v s b).2.1.cursor = s.cursor + w) ∧
    (∀ sw src len r, s.cursor + sw + len < SZ →
        (Serializer.writeStr sw src len s b).1 = .ok r →
        (Serializer.writeStr sw src len s b).2.1.cursor
          = s.cursor + sw + len) := by
  refine ⟨?_, ?_, ?_, ?_⟩
  · intro w v e hfail
    by_cases hc : (s.cursor + w) % SZ > s.cap
    · simp only [Serializer.write, if_pos hc]
      exact ⟨trivial, trivial⟩
    · simp only [Serializer.write, if_neg hc] at hfail
      exact Except.noConfusion hfail
  · intro sw src len e hfail
    by_cases hc : (s.cursor + sw + len) % SZ > s.cap
    · simp only [Serializer.writeStr, if_pos hc]
      exact ⟨trivial, trivial⟩
    · by_cases hc2 : (s.cursor + sw) % SZ > s.cap
      · simp only [Serializer.writeStr, if_neg hc, Serializer.write,
          if_pos hc2]
        exact ⟨trivial, trivial⟩
      · simp only [Serializer.writeStr, if_neg hc, Serializer.write,
          if_neg hc2] at hfail
        exact Except.noConfusion hfail
  · intro w v r hlt hok
    by_cases hc : (s.cursor + w) % SZ > s.cap
    · simp only [Serializer.write, if_pos hc] at hok
      exact Except.noConfusion hok
    · simp only [Serializer.write, if_neg hc]
      exact Nat.mod_eq_of_lt hlt
  · intro sw src len r hlt hok
    by_cases hc : (s.cursor + sw + len) % SZ > s.cap
    · simp only [Serializer.writeStr, if_pos hc] at hok
      exact Except.noConfusion hok
    · by_cases hc2 : (s.cursor + sw) % SZ > s.cap
      · simp only [Serializer.writeStr, if_neg hc, Serializer.write,
          if_pos hc2] at hok
        exact Except.noConfusion hok
      · have hsw : (s.cursor + sw) % SZ = s.cursor + sw :=
          Nat.mod_eq_of_lt (by omega)
        simp only [Serializer.writeStr, if_neg hc, Serializer.write,
          if_neg hc2]
        simp only [hsw]
        exact Nat.mod_eq_of_lt hlt

/-- Witness for the amended C4: on a capacity-2 serializer, a `uint32` write
fails and leaves the cursor at 0 and the buffer untouched; on a capacity-8
one it succeeds and moves the cursor to 4. -/
theorem write_discipline_witness :
    ((Serializer.write 4 7 ⟨2, 0, .success⟩ (fun _ => 0)).2.1.cursor = 0 ∧
      (Serializer.write 4 7 ⟨2, 0, .success⟩ (fun _ => 0)).2.2 = fun _ => 0) ∧
    (Serializer.write 4 7 ⟨8, 0, .success⟩ (fun _ => 0)).2.1.cursor = 0 + 4 :=
  ⟨(write_discipline ⟨2, 0, .success⟩ (fun _ => 0)).1 4 7 .writeOutOfRange rfl,
   (write_discipline ⟨8, 0, .success⟩ (fun _ => 0)).2.2.1 4 7 4
     (by decide) rfl⟩

/-- `(m + (P - 1)) % P` is `m - 1` for `1 ≤ m < P`: the `SizeType` modular
value of `in_maxStringSize - 1`. -/
theorem clamp_pred (m P : Nat) (h1 : 1 ≤ m) (h2 : m < P) :
    (m + (P - 1)) % P = m - 1 := by
  have e : m + (P - 1) = (m - 1) + 1 * P := by omega
  rw [e, Nat.add_mul_mod_self_right]
  exact Nat.mod_eq_of_lt (by omega)

/-- Evaluation of the `char*` overload of `readStr` on the truncating path:
destination non-null, both bounds checks passing, and the declared length
prefix at least `maxSize`, so the clamp `maxSize - 1` (in `SizeType` modular
arithmetic) is taken. -/
theorem readStrTo_clamped (d : Deserializer) (b out : Buf) (sw maxSize : Nat)
    (hpass : (d.cursor + sw + maxSize) % SZ ≤ d.cap)
    (hread : (d.cursor + sw) % SZ ≤ d.cap)
    (hdecl : maxSize ≤ readBytesLE b d.cursor sw) :
    (Deserializer.readStrTo sw maxSize false d b out).1
      = .ok ((maxSize + (256 ^ sw - 1)) % 256 ^ sw) ∧
    (Deserializer.readStrTo sw maxSize false d b out).2.1
      = ⟨d.cap, ((d.cursor + sw) % SZ
          + (maxSize + (256 ^ sw - 1)) % 256 ^ sw) % SZ, d.status⟩ ∧
    (∀ j, j < (maxSize + (256 ^ sw - 1)) % 256 ^ sw →
      (Deserializer.readStrTo sw maxSize false d b out).2.2 j
        = b ((d.cursor + sw) % SZ + j) % 256) ∧
    (Deserializer.readStrTo sw maxSize false d b out).2.2
        ((maxSize + (256 ^ sw - 1)) % 256 ^ sw) = 0 := by
  have h1 : ¬ ((d.cursor + sw + maxSize) % SZ > d.cap) := by omega
  have h2 : ¬ ((d.cursor + sw) % SZ > d.cap) := by omega
  have h3 : ¬ (readBytesLE b d.cursor sw < maxSize) := by omega
  simp only [Deserializer.readStrTo, Deserializer.read, Bool.false_eq_true,
    if_false, if_neg h1, if_neg h2, if_neg h3]
  refine ⟨trivial, trivial, ?_, ?_⟩
  · intro j hj
    rw [if_neg (by omega)]
    rw [memcpyIn_in out 0 _ _ j (by omega) (by omega)]
    simp
  · simp

/-- Evaluation of the `String`-returning overload of `readStr` on the
truncating path: both bounds checks passing and the declared length prefix
strictly greater than `maxSize` (this overload clamps on `declared ≤ maxSize`
being false), so the clamp `maxSize - 1` in `SizeType` modular arithmetic is
taken. -/
theorem readStrString_clamped (d : Deserializer) (b : Buf) (sw maxSize : Nat)
    (hpass : (d.cursor + sw + maxSize) % SZ ≤ d.cap)
    (hread : (d.cursor + sw) % SZ ≤ d.cap)
    (hdecl : maxSize < readBytesLE b d.cursor sw) :
    (Deserializer.readStrString sw maxSize d b).1
      = .ok ((List.range ((maxSize + (256 ^ sw - 1)) % 256 ^ sw)).map
          (fun j => b ((d.cursor + sw) % SZ + j) % 256)) ∧
    (Deserializer.readStrString sw maxSize d b).2
      = ⟨d.cap, ((d.cursor + sw) % SZ
          + (maxSize + (256 ^ sw - 1)) % 256 ^ sw) % SZ, d.status⟩ := by
  have h1 : ¬ ((d.cursor + sw + maxSize) % SZ > d.cap) := by omega
  have h2 : ¬ ((d.cursor + sw) % SZ > d.cap) := by omega
  have h3 : ¬ (readBytesLE b d.cursor sw ≤ maxSize) := by omega
  simp only [Deserializer.readStrString, Deserializer.read,
    if_neg h1, if_neg h2, if_neg h3]
  constructor <;> trivial

/-- C2 counterexample: a length-11 string read with `maxSize = 5` through the
`char*` overload (`SizeType = uint8`, capacity 20, cursor 0): the cursor
advances to `1 + 4 = 5`, not by the prefix plus the full declared length
(`1 + 11 = 12`). -/
theorem readStr_declared_advance_counterexample :
    (Deserializer.readStrTo 1 5 false ⟨20, 0, .success⟩
        (fun i => if i = 0 then 11 else 64 + i) (fun _ => 0)).2.1.cursor = 5 ∧
    ¬ ((5 : Nat) = 1 + 11) :=
  ⟨rfl, by decide⟩

/-- C2 amended: when the declared length prefix strictly exceeds the caller's
`maxSize` (with a non-null destination for the `char*` overload, in-bounds
arguments and `1 ≤ maxSize < 256 ^ sizeof(SizeType)`), both `readStr`
overloads truncate the payload they deliver to the clamped size `maxSize - 1`
(the `char*` overload also null-terminates it), and both advance the cursor
by `sizeof(SizeType)` plus the clamped size — not the declared length — so
subsequent reads are misaligned after a truncated string. -/
theorem readStr_truncation (d : Deserializer) (b out : Buf) (sw maxSize : Nat)
    (hcap : d.cap < SZ)
    (hb : d.cursor + sw + maxSize ≤ d.cap)
    (hmax : 1 ≤ maxSize) (hms : maxSize < 256 ^ sw)
    (hdecl : maxSize < readBytesLE b d.cursor sw) :
    (Deserializer.readStrTo sw maxSize false d b out).1 = .ok (maxSize - 1) ∧
    (Deserializer.readStrTo sw maxSize false d b out).2.1.cursor
      = d.cursor + sw + (maxSize - 1) ∧
    (∀ j, j < maxSize - 1 →
      (Deserializer.readStrTo sw maxSize false d b out).2.2 j
        = b (d.cursor + sw + j) % 256) ∧
    (Deserializer.readStrTo sw maxSize false d b out).2.2 (maxSize - 1) = 0 ∧
    (Deserializer.readStrString sw maxSize d b).1
      = .ok ((List.range (maxSize - 1)).map
          (fun j => b (d.cursor + sw + j) % 256)) ∧
    (Deserializer.readStrString sw maxSize d b).2.cursor
      = d.cursor + sw + (maxSize - 1) := by
  have hm1 : (d.cursor + sw + maxSize) % SZ = d.cursor + sw + maxSize :=
    Nat.mod_eq_of_lt (by omega)
  have hm2 : (d.cursor + sw) % SZ = d.cursor + sw :=
    Nat.mod_eq_of_lt (by omega)
  have hS : (maxSize + (256 ^ sw - 1)) % 256 ^ sw = maxSize - 1 :=
    clamp_pred maxSize (256 ^ sw) hmax hms
  have hc := readStrTo_clamped d b out sw maxSize
    (by omega) (by omega) (by omega)
  have hs := readStrString_clamped d b sw maxSize
    (by omega) (by omega) hdecl
  rw [hS] at hc hs
  refine ⟨hc.1, ?_, ?_, hc.2.2.2, ?_, ?_⟩
  · rw [hc.2.1]
    simp only [hm2]
    exact Nat.mod_eq_of_lt (by omega)
  · intro j hj
    rw [hc.2.2.1 j hj, hm2]
  · rw [hs.1, hm2]
  · rw [hs.2]
    simp only [hm2]
    exact Nat.mod_eq_of_lt (by omega)

/-- Witness for the amended C2, the scenario of the counterexample: declared
length 11, `maxSize` 5, prefix width 1: the `char*` overload returns 4, lands
the cursor at 5 and terminates the destination at index 4, and the `String`
overload returns the first 4 payload bytes with its cursor also at 5. -/
theorem readStr_truncation_witness :
    (Deserializer.readStrTo 1 5 false ⟨20, 0, .success⟩
        (fun i => if i = 0 then 11 else 64 + i) (fun _ => 0)).1 = .ok 4 ∧
    (Deserializer.readStrTo 1 5 false ⟨20, 0, .success⟩
        (fun i => if i = 0 then 11 else 64 + i) (fun _ => 0)).2.1.cursor = 5 ∧
    (Deserializer.readStrTo 1 5 false ⟨20, 0, .success⟩
        (fun i => if i = 0 then 11 else 64 + i) (fun _ => 0)).2.2 4 = 0 ∧
    (Deserializer.readStrString 1 5 ⟨20, 0, .success⟩
        (fun i => if i = 0 then 11 else 64 + i)).1 = .ok [65, 66, 67, 68] ∧
    (Deserializer.readStrString 1 5 ⟨20, 0, .success⟩
        (fun i => if i = 0 then 11 else 64 + i)).2.cursor = 5 := by
  have h := readStr_truncation ⟨20, 0, .success⟩
    (fun i => if i = 0 then 11 else 64 + i) (fun _ => 0) 1 5
    (by decide) (by decide) (by decide) (by decide) (by decide)
  refine ⟨h.1, h.2.1, h.2.2.2.1, ?_, h.2.2.2.2.2⟩
  rw [h.2.2.2.2.1]
  rfl

/-- C9 counterexample: with a null destination the `char*` overload fails
with `readStringOutIsNullptr`, not `readStringOutOfRange`, even though
`cursor + sizeof(SizeType) + maxStringSize > capacity` (here `0 + 1 + 10 > 8`):
the nullptr check precedes the bounds check, so "whenever" does not hold as
stated. -/
theorem readStr_nullptr_counterexample :
    (Deserializer.readStrTo 1 10 true ⟨8, 0, .success⟩ (fun _ => 0)
        (fun _ => 0)).1 = .error .readStringOutIsNullptr ∧
    (0 + 1 + 10 > 8) ∧
    DeserializerStatus.readStringOutIsNullptr ≠ .readStringOutOfRange :=
  ⟨rfl, by decide, by decide⟩

/-- C9 amended: for a non-null destination (the `char*` overload; a null one
fails earlier with `readStringOutIsNullptr`), both `readStr` overloads fail
with `readStringOutOfRange` and leave the cursor (and sticky status of the
previous operation, now overwritten) unchanged whenever
`(cursor + sizeof(SizeType) + maxStringSize) mod 2^64 > capacity` — the check
is against the caller's `maxStringSize`, not the encoded string's actual
size, which the guard never inspects. -/
theorem readStr_bounds_check (d : Deserializer) (b out : Buf) (sw maxSize : Nat)
    (h : (d.cursor + sw + maxSize) % SZ > d.cap) :
    Deserializer.readStrTo sw maxSize false d b out
      = (.error .readStringOutOfRange,
         { d with status := .readStringOutOfRange }, out) ∧
    Deserializer.readStrString sw maxSize d b
      = (.error .readStringOutOfRange,
         { d with status := .readStringOutOfRange }) := by
  constructor
  · simp only [Deserializer.readStrTo, Bool.false_eq_true, if_false, if_pos h]
  · simp only [Deserializer.readStrString, if_pos h]

/-- Witness for the amended C9: capacity 8, cursor 0, `SizeType = uint8`,
`maxStringSize = 10`: both overloads fail with `readStringOutOfRange` and the
cursor stays at 0. -/
theorem readStr_bounds_check_witness :
    Deserializer.readStrTo 1 10 false ⟨8, 0, .success⟩ (fun _ => 0) (fun _ => 0)
      = (.error .readStringOutOfRange, ⟨8, 0, .readStringOutOfRange⟩,
         fun _ => 0) ∧
    Deserializer.readStrString 1 10 ⟨8, 0, .success⟩ (fun _ => 0)
      = (.error .readStringOutOfRange, ⟨8, 0, .readStringOutOfRange⟩) :=
  readStr_bounds_check ⟨8, 0, .success⟩ (fun _ => 0) (fun _ => 0) 1 10
    (by decide)

/-- C10 (confirmed): in the `char*` overload, when the declared length is at
least `maxStringSize` the copy size is `maxStringSize - 1` in `SizeType`
modular arithmetic; for `maxStringSize = 0` (bounds check passing) it wraps to
`256 ^ sizeof(SizeType) - 1`, the maximum `SizeType` value, strictly larger
than `maxStringSize` — and a byte is indeed copied into the destination — so
the number of bytes copied is not bounded by `maxStringSize`. -/
theorem readStr_clamp_wrap (d : Deserializer) (b out : Buf) (sw maxSize : Nat)
    (hpass : (d.cursor + sw + maxSize) % SZ ≤ d.cap)
    (hread : (d.cursor + sw) % SZ ≤ d.cap)
    (hdecl : maxSize ≤ readBytesLE b d.cursor sw) :
    (Deserializer.readStrTo sw maxSize false d b out).1
      = .ok ((maxSize + (256 ^ sw - 1)) % 256 ^ sw) ∧
    (maxSize = 0 → 1 ≤ sw →
      (Deserializer.readStrTo sw maxSize false d b out).1
        = .ok (256 ^ sw - 1) ∧
      maxSize < 256 ^ sw - 1 ∧
      (Deserializer.readStrTo sw maxSize false d b out).2.2 0
        = b ((d.cursor + sw) % SZ) % 256) := by
  have hc := readStrTo_clamped d b out sw maxSize hpass hread hdecl
  have hP : 256 ≤ 256 ^ sw → (0 + (256 ^ sw - 1)) % 256 ^ sw = 256 ^ sw - 1 :=
    fun h256 => by
      rw [Nat.zero_add]
      exact Nat.mod_eq_of_lt (by omega)
  refine ⟨hc.1, ?_⟩
  intro hm0 hsw
  have h256 : 256 ≤ 256 ^ sw := by
    calc 256 = 256 ^ 1 := (pow_one 256).symm
    _ ≤ 256 ^ sw := Nat.pow_le_pow_right (by omega) hsw
  have hwrap : (maxSize + (256 ^ sw - 1)) % 256 ^ sw = 256 ^ sw - 1 := by
    rw [hm0]
    exact hP h256
  refine ⟨by rw [hc.1, hwrap], by omega, ?_⟩
  have := hc.2.2.1 0 (by omega)
  simpa using this

/-- Witness for C10: `SizeType = uint8`, `maxStringSize = 0`, capacity 8,
declared length 0: the call reports 255 bytes copied — `uint8`'s maximum —
and the first destination byte was overwritten with a payload byte, although
`maxStringSize` was 0. -/
theorem readStr_clamp_wrap_witness :
    (Deserializer.readStrTo 1 0 false ⟨8, 0, .success⟩ (fun _ => 0)
        (fun _ => 0)).1 = .ok 255 ∧
    (0 : Nat) < 255 := by
  have h := (readStr_clamp_wrap ⟨8, 0, .success⟩ (fun _ => 0) (fun _ => 0) 1 0
    (by decide) (by decide) (by decide)).2 rfl (by decide)
  exact ⟨h.1, h.2.1⟩

end halvoe
